import Mathlib

/-!
Verification of the CV/job-description analysis service.

The development shallowly embeds the components of the pipeline:
byte-buffer PDF validation, extracted-text cleaning, the sliding-window
rate limiter, JSON recovery from free-form model text with the
JavaScript value coercions used by the normalizer, and the orchestrating
`analyzeCandidateMatch` procedure.  Byte buffers are `List Nat`, machine
time (`Date.now()` milliseconds) is an explicit `Int` parameter, the
process environment is an explicit record, and the two external
collaborators (the PDF text extractor and the remote model endpoint) are
explicit function parameters ("oracles") of the orchestrator.
-/

/-! ## DocumentValidator (PDFService.validatePDF) -/

/-- Outcome record of `validatePDF`, mirroring `{ isValid, error? }`. -/
structure ValidationResult where
  isValid : Bool
  error : Option String
deriving DecidableEq, Repr

/-- The four ASCII bytes of the `%PDF` marker. -/
def pdfMarker : List Nat := [0x25, 0x50, 0x44, 0x46]

/-- Ten mebibytes, the size cap used by `validatePDF`. -/
def maxPdfSize : Nat := 10 * 1024 * 1024

def invalidFormatMsg : String := "Invalid PDF format"

def tooLargeMsg : String := "PDF file too large (max 10MB)"

/-- Models `PDFService.validatePDF`: the first four bytes must decode to the
ASCII marker `%PDF` (UTF-8 decoding of four bytes equals `"%PDF"` exactly
when the bytes are `0x25 0x50 0x44 0x46`), and the buffer must not
exceed 10 MiB. -/
def validatePDF (buffer : List Nat) : ValidationResult :=
  if buffer.take 4 ≠ pdfMarker then
    ⟨false, some invalidFormatMsg⟩
  else if buffer.length > maxPdfSize then
    ⟨false, some tooLargeMsg⟩
  else
    ⟨true, none⟩

/-! ## Text cleaning (PDFService.cleanText)

`cleanText` chains three JavaScript string operations:
`replace(/\r\n|\r|\n/g, " ")`, `replace(/\s+/g, " ")`, `trim()`.
Strings are worked on as `List Char`. -/

/-- The character class of the JavaScript `\s` regex escape, which is
also the set removed by `String.prototype.trim`: ASCII whitespace and
line terminators plus the Unicode space separators, NEL-free. -/
def isWs (c : Char) : Bool :=
  c == ' ' || c == '\t' || c == '\n' || c == '\r' || c == '\x0b' || c == '\x0c' ||
  c == '\u00A0' || c == '\u1680' || ('\u2000' ≤ c && c ≤ '\u200A') ||
  c == '\u2028' || c == '\u2029' || c == '\u202F' || c == '\u205F' ||
  c == '\u3000' || c == '\uFEFF'

/-- Models `replace(/\r\n|\r|\n/g, " ")`: each line-break variant becomes one
space, `\r\n` consumed as a unit first (leftmost-longest for this
alternation). -/
def lineBreaksToSpace : List Char → List Char
  | [] => []
  | '\r' :: '\n' :: rest => ' ' :: lineBreaksToSpace rest
  | '\r' :: rest => ' ' :: lineBreaksToSpace rest
  | '\n' :: rest => ' ' :: lineBreaksToSpace rest
  | c :: rest => c :: lineBreaksToSpace rest

mutual

/-- Models `replace(/\s+/g, " ")`: every maximal run of whitespace collapses to
a single space.  `collapseWs` scans outside a whitespace run; on meeting
whitespace it emits one space and hands the rest of the run to
`collapseWsRun`. -/
def collapseWs : List Char → List Char
  | [] => []
  | c :: rest =>
    if isWs c then ' ' :: collapseWsRun rest
    else c :: collapseWs rest

/-- Skips the remainder of a whitespace run already represented by one
emitted space. -/
def collapseWsRun : List Char → List Char
  | [] => []
  | c :: rest =>
    if isWs c then collapseWsRun rest
    else c :: collapseWs rest

end

/-- Models `String.prototype.trim`: strip the `isWs` characters from both ends. -/
def trimWs (l : List Char) : List Char :=
  (l.dropWhile isWs).rdropWhile isWs

/-- Models `PDFService.cleanText` on character lists. -/
def cleanTextChars (l : List Char) : List Char :=
  trimWs (collapseWs (lineBreaksToSpace l))

/-- Models `PDFService.cleanText` on strings. -/
def cleanText (s : String) : String :=
  String.mk (cleanTextChars s.data)

/-- Models `String.prototype.trim` on strings (used by the empty-text
checks of the orchestrator). -/
def strTrim (s : String) : String :=
  String.mk (trimWs s.data)

example :
    cleanText "  Multiple\n\n\r\n  spaces   and\r\nline breaks  " =
      "Multiple spaces and line breaks" := by decide

/-! ### Shape invariants of the cleaned text -/

/-- Every whitespace character of the list is a plain space. -/
def onlySpaceWs (l : List Char) : Prop :=
  ∀ c ∈ l, isWs c = true → c = ' '

/-- No two adjacent characters are both whitespace. -/
def sepWs (l : List Char) : Prop :=
  List.Chain' (fun a b => ¬(isWs a = true ∧ isWs b = true)) l

lemma collapse_both_inv (l : List Char) :
    (onlySpaceWs (collapseWs l) ∧ sepWs (collapseWs l)) ∧
    (onlySpaceWs (collapseWsRun l) ∧ sepWs (collapseWsRun l) ∧
      ∀ c ∈ (collapseWsRun l).head?, isWs c = false) := by
  induction l with
  | nil =>
    simp [collapseWs, collapseWsRun, onlySpaceWs, sepWs]
  | cons c rest ih =>
    obtain ⟨⟨ihO, ihC⟩, ihRO, ihRC, ihRH⟩ := ih
    by_cases h : isWs c
    · refine ⟨⟨?_, ?_⟩, ?_, ?_, ?_⟩
      · simp only [collapseWs, h, if_true]
        intro d hd hws
        rcases List.mem_cons.mp hd with h1 | h1
        · exact h1
        · exact ihRO d h1 hws
      · simp only [collapseWs, h, if_true, sepWs]
        refine List.chain'_cons'.mpr ⟨?_, ihRC⟩
        intro y hy hcontra
        have := ihRH y hy
        rw [hcontra.2] at this
        exact absurd this (by decide)
      · simpa only [collapseWsRun, h, if_true] using ihRO
      · simpa only [collapseWsRun, h, if_true] using ihRC
      · simpa only [collapseWsRun, h, if_true] using ihRH
    · have hfalse : isWs c = false := by simpa using h
      refine ⟨⟨?_, ?_⟩, ?_, ?_, ?_⟩
      · simp only [collapseWs, hfalse, Bool.false_eq_true, if_false]
        intro d hd hws
        rcases List.mem_cons.mp hd with h1 | h1
        · rw [h1] at hws; exact absurd hws (by simp [hfalse])
        · exact ihO d h1 hws
      · simp only [collapseWs, hfalse, Bool.false_eq_true, if_false, sepWs]
        refine List.chain'_cons'.mpr ⟨?_, ihC⟩
        intro y _ hcontra
        rw [hfalse] at hcontra
        exact absurd hcontra.1 (by decide)
      · simp only [collapseWsRun, hfalse, Bool.false_eq_true, if_false]
        intro d hd hws
        rcases List.mem_cons.mp hd with h1 | h1
        · rw [h1] at hws; exact absurd hws (by simp [hfalse])
        · exact ihO d h1 hws
      · simp only [collapseWsRun, hfalse, Bool.false_eq_true, if_false, sepWs]
        refine List.chain'_cons'.mpr ⟨?_, ihC⟩
        intro y _ hcontra
        rw [hfalse] at hcontra
        exact absurd hcontra.1 (by decide)
      · simp only [collapseWsRun, hfalse, Bool.false_eq_true, if_false]
        intro d hd
        simp only [List.head?_cons, Option.mem_def, Option.some.injEq] at hd
        rw [← hd]
        exact hfalse

lemma collapse_both_id (l : List Char) :
    (onlySpaceWs l → sepWs l → collapseWs l = l) ∧
    ((∀ c ∈ l.head?, isWs c = false) → onlySpaceWs l → sepWs l →
      collapseWsRun l = l) := by
  induction l with
  | nil => exact ⟨fun _ _ => rfl, fun _ _ _ => rfl⟩
  | cons c rest ih =>
    have hsubO : onlySpaceWs (c :: rest) → onlySpaceWs rest :=
      fun h d hd => h d (List.mem_cons_of_mem _ hd)
    have hsubC : sepWs (c :: rest) → sepWs rest :=
      fun h => (List.chain'_cons'.mp h).2
    constructor
    · intro hO hC
      by_cases h : isWs c
      · have hc : c = ' ' := hO c (List.mem_cons_self c rest) h
        simp only [collapseWs, h, if_true]
        have hhead : ∀ d ∈ rest.head?, isWs d = false := by
          intro d hd
          have hrel := (List.chain'_cons'.mp hC).1 d hd
          by_contra hws
          exact hrel ⟨h, by simpa using hws⟩
        rw [ih.2 hhead (hsubO hO) (hsubC hC), hc]
      · have hfalse : isWs c = false := by simpa using h
        simp only [collapseWs, hfalse, Bool.false_eq_true, if_false]
        rw [ih.1 (hsubO hO) (hsubC hC)]
    · intro hhead hO hC
      have hc : isWs c = false := by
        simpa using hhead c (by simp)
      simp only [collapseWsRun, hc, Bool.false_eq_true, if_false]
      rw [ih.1 (hsubO hO) (hsubC hC)]

lemma lineBreaksToSpace_cons_ne (c : Char) (rest : List Char)
    (hr : c ≠ '\r') (hn : c ≠ '\n') :
    lineBreaksToSpace (c :: rest) = c :: lineBreaksToSpace rest := by
  rw [lineBreaksToSpace.eq_def]
  split <;> first | rfl | simp_all

lemma lineBreaks_id : ∀ l : List Char, onlySpaceWs l → lineBreaksToSpace l = l := by
  intro l
  induction l with
  | nil => intro _; simp [lineBreaksToSpace]
  | cons c rest ih =>
    intro h
    have hrest : onlySpaceWs rest := fun d hd => h d (List.mem_cons_of_mem _ hd)
    have hr : c ≠ '\r' := by
      intro e
      have := h c (List.mem_cons_self c rest) (by rw [e]; decide)
      rw [e] at this
      exact absurd this (by decide)
    have hn : c ≠ '\n' := by
      intro e
      have := h c (List.mem_cons_self c rest) (by rw [e]; decide)
      rw [e] at this
      exact absurd this (by decide)
    rw [lineBreaksToSpace_cons_ne c rest hr hn, ih hrest]

lemma trimWs_within (l : List Char) : trimWs l <:+: l :=
  ( List.rdropWhile_prefix isWs (l.dropWhile isWs)).isInfix.trans
    (List.dropWhile_suffix isWs).isInfix

lemma onlySpaceWs_of_sublist {l m : List Char} (h : List.Sublist m l)
    (hl : onlySpaceWs l) : onlySpaceWs m :=
  fun c hc => hl c (h.subset hc)

lemma dropWhile_trimWs (l : List Char) :
    (trimWs l).dropWhile isWs = trimWs l := by
  unfold trimWs
  have hA : (l.dropWhile isWs).dropWhile isWs = l.dropWhile isWs :=
    List.dropWhile_idempotent isWs l
  rcases hd : (l.dropWhile isWs).rdropWhile isWs with _ | ⟨b, bs⟩
  · rfl
  · have hpre : b :: bs <+: l.dropWhile isWs := hd ▸ List.rdropWhile_prefix isWs _
    obtain ⟨t, ht⟩ := hpre
    have hb : isWs b = false := by
      rw [← ht, List.cons_append] at hA
      rcases hws : isWs b with _ | _
      · rfl
      · exfalso
        rw [List.dropWhile_cons, if_pos (by simp [hws])] at hA
        have hlen : ((bs ++ t).dropWhile isWs).length ≤ (bs ++ t).length :=
          (List.dropWhile_suffix isWs).sublist.length_le
        rw [hA] at hlen
        simp at hlen
    rw [List.dropWhile_cons, if_neg (by simp [hb])]

lemma trimWs_idempotent (l : List Char) : trimWs (trimWs l) = trimWs l := by
  conv_lhs => rw [trimWs, dropWhile_trimWs]
  rw [trimWs, List.rdropWhile_idempotent]

/-- Claim C9: `cleanText` is idempotent: collapsing line breaks to spaces,
collapsing whitespace runs to a single space and trimming, applied a
second time, changes nothing. -/
theorem cleanText_idempotent (s : String) : cleanText (cleanText s) = cleanText s := by
  have key : ∀ l : List Char, cleanTextChars (cleanTextChars l) = cleanTextChars l := by
    intro l
    have hO : onlySpaceWs (collapseWs (lineBreaksToSpace l)) :=
      (collapse_both_inv (lineBreaksToSpace l)).1.1
    have hC : sepWs (collapseWs (lineBreaksToSpace l)) :=
      (collapse_both_inv (lineBreaksToSpace l)).1.2
    have hinf := trimWs_within (collapseWs (lineBreaksToSpace l))
    have htO : onlySpaceWs (cleanTextChars l) :=
      onlySpaceWs_of_sublist hinf.sublist hO
    have htC : sepWs (cleanTextChars l) := List.Chain'.infix hC hinf
    conv_lhs =>
      rw [cleanTextChars, lineBreaks_id _ htO, (collapse_both_id _).1 htO htC]
    exact trimWs_idempotent _
  exact congrArg String.mk (key s.data)

/-- Claim C4: `validatePDF` rejects every buffer whose first four bytes
are not the `%PDF` marker with the "Invalid PDF format" reason
regardless of length, rejects every marker-carrying buffer longer than
10 MiB with a reason containing "too large", and accepts every
marker-carrying buffer of at most 10 MiB. -/
theorem validatePDF_spec (buffer : List Nat) :
    (buffer.take 4 ≠ pdfMarker →
      validatePDF buffer = ⟨false, some invalidFormatMsg⟩) ∧
    (buffer.take 4 = pdfMarker → buffer.length > maxPdfSize →
      validatePDF buffer = ⟨false, some tooLargeMsg⟩ ∧
        tooLargeMsg = "PDF file " ++ "too large" ++ " (max 10MB)") ∧
    (buffer.take 4 = pdfMarker → buffer.length ≤ maxPdfSize →
      validatePDF buffer = ⟨true, none⟩) := by
  refine ⟨fun h => ?_, fun h hlen => ⟨?_, rfl⟩, fun h hlen => ?_⟩
  · rw [validatePDF, if_pos h]
  · rw [validatePDF, if_neg (by simp [h]), if_pos hlen]
  · rw [validatePDF, if_neg (by simp [h]), if_neg (by omega)]

theorem validatePDF_spec_witness :
    validatePDF [0x25, 0x50, 0x44, 0x46] = ⟨true, none⟩ ∧
    validatePDF [0x42, 0x50, 0x44, 0x46] = ⟨false, some invalidFormatMsg⟩ :=
  ⟨(validatePDF_spec [0x25, 0x50, 0x44, 0x46]).2.2 (by decide) (by decide),
   (validatePDF_spec [0x42, 0x50, 0x44, 0x46]).1 (by decide)⟩

/-! ## RateAdmissionController (RateLimiter)

The identifier-window `Map` of the limiter is an association list whose
most recent binding for a key shadows older ones (`Map.set` is modelled
by prepending).  `Date.now()` is the explicit `now : Int` argument, in
milliseconds. -/

abbrev RLState := List (String × List Int)

def minuteLimit : Nat := 20

def hourLimit : Nat := 300

def minuteWindow : Int := 60 * 1000

def hourWindow : Int := 60 * 60 * 1000

def minuteMsg : String :=
  "Rate limit exceeded: " ++ toString minuteLimit ++ " requests per minute"

def hourMsg : String :=
  "Rate limit exceeded: " ++ toString hourLimit ++ " requests per hour"

/-- Models `cleanOldRequests`: keep only the timestamps still inside the window. -/
def cleanOldRequests (now : Int) (requests : List Int) (windowMs : Int) : List Int :=
  requests.filter (fun timestamp => now - timestamp < windowMs)

/-- Result record of `canMakeRequest`, mirroring `{ allowed, error? }`. -/
structure CheckResult where
  allowed : Bool
  error : Option String
deriving DecidableEq, Repr

/-- Stores a window for an identifier (`this.windows.set`). -/
def setWindow (s : RLState) (id : String) (requests : List Int) : RLState :=
  (id, requests) :: s

/-- Models `RateLimiter.canMakeRequest`: prune to the hour window, re-filter to
the minute window, check the two limits in that order, and append the
current instant when allowed. -/
def canMakeRequest (now : Int) (s : RLState) (id : String := "default") :
    CheckResult × RLState :=
  let requests := (s.lookup id).getD []
  let pruned := cleanOldRequests now requests hourWindow
  let recentMinuteRequests := cleanOldRequests now pruned minuteWindow
  if recentMinuteRequests.length ≥ minuteLimit then
    (⟨false, some minuteMsg⟩, setWindow s id pruned)
  else if pruned.length ≥ hourLimit then
    (⟨false, some hourMsg⟩, setWindow s id pruned)
  else
    (⟨true, none⟩, setWindow s id (pruned ++ [now]))

/-- Models `RateLimiter.getRemainingRequests`: no window means the full limits;
otherwise each limit less the in-window count, floored at zero.  The
state is read, never written. -/
def getRemainingRequests (now : Int) (s : RLState) (id : String := "default") :
    Int × Int :=
  match s.lookup id with
  | none => ((minuteLimit : Int), (hourLimit : Int))
  | some requests =>
    let recentMinuteRequests := cleanOldRequests now requests minuteWindow
    let recentHourRequests := cleanOldRequests now requests hourWindow
    (max 0 ((minuteLimit : Int) - recentMinuteRequests.length),
     max 0 ((hourLimit : Int) - recentHourRequests.length))

/-- Runs a sequence of admission checks at the given instants, returning
the list of results and the final state. -/
def runChecks (id : String) : List Int → RLState → List CheckResult × RLState
  | [], s => ([], s)
  | t :: ts, s =>
    let step := canMakeRequest t s id
    let rest := runChecks id ts step.2
    (step.1 :: rest.1, rest.2)

lemma cleanOld_of_pruned (now now2 W : Int) (hle : now ≤ now2) (hW : W ≤ hourWindow)
    (l : List Int) :
    cleanOldRequests now2 (cleanOldRequests now l hourWindow) W =
      cleanOldRequests now2 l W := by
  unfold cleanOldRequests
  rw [List.filter_filter]
  apply List.filter_congr
  intro t _
  by_cases h : now2 - t < W
  · have hh : now - t < hourWindow := by omega
    simp [h, hh]
  · simp [h]

set_option maxRecDepth 100000 in
/-- Claim C1: the admission check prunes to the hour window, re-filters
the pruned set to the minute window, rejects at 20 per minute first,
then at 300 per hour, and otherwise appends the current instant and
allows; from an empty window the 20th check within one minute is
allowed and the 21st is rejected with a reason containing
"20 requests per minute". -/
theorem canMakeRequest_spec (now : Int) (s : RLState) (id : String) :
    ((cleanOldRequests now (cleanOldRequests now ((s.lookup id).getD []) hourWindow)
        minuteWindow).length ≥ minuteLimit →
      canMakeRequest now s id =
        (⟨false, some minuteMsg⟩,
          setWindow s id (cleanOldRequests now ((s.lookup id).getD []) hourWindow))) ∧
    ((cleanOldRequests now (cleanOldRequests now ((s.lookup id).getD []) hourWindow)
        minuteWindow).length < minuteLimit →
      (cleanOldRequests now ((s.lookup id).getD []) hourWindow).length ≥ hourLimit →
      canMakeRequest now s id =
        (⟨false, some hourMsg⟩,
          setWindow s id (cleanOldRequests now ((s.lookup id).getD []) hourWindow))) ∧
    ((cleanOldRequests now (cleanOldRequests now ((s.lookup id).getD []) hourWindow)
        minuteWindow).length < minuteLimit →
      (cleanOldRequests now ((s.lookup id).getD []) hourWindow).length < hourLimit →
      canMakeRequest now s id =
        (⟨true, none⟩,
          setWindow s id
            (cleanOldRequests now ((s.lookup id).getD []) hourWindow ++ [now]))) ∧
    (∃ pre post, minuteMsg = pre ++ "20 requests per minute" ++ post) ∧
    (runChecks "x" (List.replicate 21 0) []).1[19]? = some ⟨true, none⟩ ∧
    (runChecks "x" (List.replicate 21 0) []).1[20]? = some ⟨false, some minuteMsg⟩ := by
  refine ⟨fun h1 => ?_, fun h1 h2 => ?_, fun h1 h2 => ?_,
    ⟨"Rate limit exceeded: ", "", by decide⟩, by decide, by decide⟩
  · simp only [canMakeRequest, if_pos h1]
  · simp only [canMakeRequest, if_neg (Nat.not_le.mpr h1), if_pos h2]
  · simp only [canMakeRequest, if_neg (Nat.not_le.mpr h1), if_neg (Nat.not_le.mpr h2)]

theorem canMakeRequest_spec_witness :
    canMakeRequest 0 [("x", List.replicate 20 0)] "x" =
      (⟨false, some minuteMsg⟩, setWindow [("x", List.replicate 20 0)] "x"
        (cleanOldRequests 0 (List.replicate 20 0) hourWindow)) :=
  (canMakeRequest_spec 0 [("x", List.replicate 20 0)] "x").1 (by decide)

/-- Claim C8: `getRemainingRequests` reports each limit minus the
current in-window count, floored at zero, reading but never writing the
window map (it is a pure function of the state); an unknown identifier
reports the full limits (20, 300), and after one successful check within
the windows it reports (19, 299). -/
theorem getRemainingRequests_spec (now : Int) (s : RLState) (id : String) :
    (s.lookup id = none →
      getRemainingRequests now s id = ((minuteLimit : Int), (hourLimit : Int))) ∧
    (∀ requests : List Int, s.lookup id = some requests →
      getRemainingRequests now s id =
        (max 0 ((minuteLimit : Int) -
            (cleanOldRequests now requests minuteWindow).length),
         max 0 ((hourLimit : Int) -
            (cleanOldRequests now requests hourWindow).length))) ∧
    getRemainingRequests 0 ([] : RLState) "x" = (20, 300) ∧
    (canMakeRequest 0 ([] : RLState) "x").1 = ⟨true, none⟩ ∧
    getRemainingRequests 0 (canMakeRequest 0 ([] : RLState) "x").2 "x" = (19, 299) := by
  refine ⟨fun h => ?_, fun requests h => ?_, by decide, by decide, by decide⟩
  · simp only [getRemainingRequests, h]
  · simp only [getRemainingRequests, h]

theorem getRemainingRequests_spec_witness :
    getRemainingRequests 5 [("a", [3])] "b" = (20, 300) ∧
    getRemainingRequests 5 [("a", [3])] "a" = (19, 299) := by
  constructor
  · exact (getRemainingRequests_spec 5 [("a", [3])] "b").1 (by decide)
  · rw [(getRemainingRequests_spec 5 [("a", [3])] "a").2.1 [3] (by decide)]
    decide

/-- Claim C10: a rejected admission check appends no timestamp: the
stored window becomes exactly the hour-pruned previous window, and every
later reading of the remaining counts is unchanged by the rejected call;
quota is consumed only by allowed calls. -/
theorem rejected_check_preserves_counts (now : Int) (s : RLState) (id : String)
    (r : CheckResult) (s' : RLState)
    (hrun : canMakeRequest now s id = (r, s'))
    (hdenied : r.allowed = false) :
    s'.lookup id = some (cleanOldRequests now ((s.lookup id).getD []) hourWindow) ∧
    ∀ now2 : Int, now ≤ now2 →
      getRemainingRequests now2 s' id = getRemainingRequests now2 s id := by
  have hlookup : ∀ reqs : List Int,
      (setWindow s id reqs).lookup id = some reqs := by
    intro reqs
    simp [setWindow, List.lookup]
  rcases hlk : s.lookup id with _ | reqs
  · -- an unknown identifier is always allowed, contradicting the denial
    exfalso
    rw [canMakeRequest] at hrun
    simp only [hlk, Option.getD_none, cleanOldRequests, List.filter_nil,
      List.length_nil] at hrun
    rw [if_neg (by simp [minuteLimit]), if_neg (by simp [hourLimit])] at hrun
    have : r = ⟨true, none⟩ := (Prod.mk.injEq .. ▸ hrun).1.symm
    rw [this] at hdenied
    exact absurd hdenied (by decide)
  · have hs' : s' = setWindow s id (cleanOldRequests now reqs hourWindow) := by
      rw [canMakeRequest] at hrun
      simp only [hlk, Option.getD_some] at hrun
      split at hrun
      · exact ((Prod.mk.injEq .. ▸ hrun).2).symm
      · split at hrun
        · exact ((Prod.mk.injEq .. ▸ hrun).2).symm
        · exfalso
          have : r = ⟨true, none⟩ := (Prod.mk.injEq .. ▸ hrun).1.symm
          rw [this] at hdenied
          exact absurd hdenied (by decide)
    constructor
    · rw [hs', Option.getD_some]
      exact hlookup _
    · intro now2 hle
      rw [hs']
      simp only [getRemainingRequests, hlookup, hlk]
      rw [cleanOld_of_pruned now now2 minuteWindow hle (by decide) reqs,
          cleanOld_of_pruned now now2 hourWindow hle (by decide) reqs]

theorem rejected_check_preserves_counts_witness :
    (canMakeRequest 0 [("x", List.replicate 20 0)] "x").2.lookup "x" =
        some (cleanOldRequests 0 (List.replicate 20 0) hourWindow) ∧
    getRemainingRequests 5 (canMakeRequest 0 [("x", List.replicate 20 0)] "x").2 "x" =
      getRemainingRequests 5 [("x", List.replicate 20 0)] "x" := by
  have h := rejected_check_preserves_counts 0 [("x", List.replicate 20 0)] "x"
    (canMakeRequest 0 [("x", List.replicate 20 0)] "x").1
    (canMakeRequest 0 [("x", List.replicate 20 0)] "x").2
    rfl (by decide)
  exact ⟨by simpa using h.1, h.2 5 (by decide)⟩

/-! ## JSON values and `JSON.parse`

`parseAIResponse` hands a recovered substring to the JavaScript
`JSON.parse` and then reads properties off the parsed value with
the coercion rules of JavaScript.  JSON values are modelled by `Json`.
Every numeric literal is an exact decimal, so numbers are carried as an
integer mantissa with a base-10 integer exponent (`Dec`); no rounding is
involved.  JavaScript numbers reaching the normalizing clamp are
modelled by `JsNum`, with NaN and the infinities explicit. -/

/-- The exact decimal `m * 10 ^ e`. -/
structure Dec where
  m : Int
  e : Int
deriving DecidableEq, Repr

def Dec.ofInt (n : Int) : Dec := ⟨n, 0⟩

/-- The rational value of a decimal. -/
def Dec.toRat (a : Dec) : ℚ := (a.m : ℚ) * (10 : ℚ) ^ a.e

/-- The mantissa rescaled to a common exponent `emin`. -/
def Dec.scaledM (a : Dec) (emin : Int) : Int :=
  a.m * 10 ^ (a.e - emin).toNat

/-- Numeric comparison of two decimals by cross-scaling to the smaller
exponent. -/
def Dec.le (a b : Dec) : Bool :=
  a.scaledM (min a.e b.e) ≤ b.scaledM (min a.e b.e)

def decMin (a b : Dec) : Dec := if Dec.le a b then a else b

def decMax (a b : Dec) : Dec := if Dec.le a b then b else a

lemma Dec.scaledM_toRat (x : Dec) (emin : Int) (hle : emin ≤ x.e) :
    ((x.scaledM emin : Int) : ℚ) = x.toRat * (10 : ℚ) ^ (-emin) := by
  have h10 : (10 : ℚ) ≠ 0 := by norm_num
  have hnn : (0 : Int) ≤ x.e - emin := by omega
  have hcast : (((x.e - emin).toNat : Int) : ℤ) = x.e - emin := Int.toNat_of_nonneg hnn
  rw [Dec.scaledM, Dec.toRat]
  push_cast
  rw [show ((10 : ℚ) ^ (x.e - emin).toNat = (10 : ℚ) ^ ((x.e - emin).toNat : Int)) from
    (zpow_natCast (10 : ℚ) _).symm, hcast, zpow_sub₀ h10]
  field_simp

lemma Dec.le_iff (a b : Dec) : Dec.le a b = true ↔ a.toRat ≤ b.toRat := by
  have h10 : (0 : ℚ) < (10 : ℚ) ^ (-(min a.e b.e)) := zpow_pos (by norm_num) _
  rw [Dec.le, decide_eq_true_iff]
  rw [show (a.scaledM (min a.e b.e) ≤ b.scaledM (min a.e b.e)) ↔
      ((a.scaledM (min a.e b.e) : Int) : ℚ) ≤ ((b.scaledM (min a.e b.e) : Int) : ℚ) from
    Int.cast_le.symm]
  rw [Dec.scaledM_toRat a _ (min_le_left a.e b.e),
    Dec.scaledM_toRat b _ (min_le_right a.e b.e)]
  exact mul_le_mul_right h10

lemma decMin_toRat (a b : Dec) : (decMin a b).toRat = min a.toRat b.toRat := by
  rw [decMin]
  rcases h : Dec.le a b with _ | _
  · have : ¬ a.toRat ≤ b.toRat := by
      rw [← Dec.le_iff]
      simp [h]
    simp [min_eq_right (le_of_not_le this)]
  · have := (Dec.le_iff a b).mp h
    simp [min_eq_left this]

lemma decMax_toRat (a b : Dec) : (decMax a b).toRat = max a.toRat b.toRat := by
  rw [decMax]
  rcases h : Dec.le a b with _ | _
  · have : ¬ a.toRat ≤ b.toRat := by
      rw [← Dec.le_iff]
      simp [h]
    simp [max_eq_left (le_of_not_le this)]
  · have := (Dec.le_iff a b).mp h
    simp [max_eq_right this]

inductive Json where
  | null
  | bool (b : Bool)
  | num (d : Dec)
  | str (s : String)
  | arr (elements : List Json)
  | obj (members : List (String × Json))

inductive JsNum where
  | nan
  | posInf
  | negInf
  | fin (d : Dec)
deriving DecidableEq, Repr

/-- Models `Math.min(a, x)` for a finite literal `a`. -/
def jsMinC (a : Dec) : JsNum → JsNum
  | .nan => .nan
  | .posInf => .fin a
  | .negInf => .negInf
  | .fin b => .fin (decMin a b)

/-- Models `Math.max(a, x)` for a finite literal `a`. -/
def jsMaxC (a : Dec) : JsNum → JsNum
  | .nan => .nan
  | .posInf => .posInf
  | .negInf => .fin a
  | .fin b => .fin (decMax a b)

def jsNeg : JsNum → JsNum
  | .nan => .nan
  | .posInf => .negInf
  | .negInf => .posInf
  | .fin d => .fin ⟨-d.m, d.e⟩

/-! ### `ToNumber` on strings (`Number(string)` semantics) -/

def digitsVal (l : List Char) : Nat :=
  l.foldl (fun n c => 10 * n + (c.toNat - 48)) 0

def isHexDigit (c : Char) : Bool :=
  c.isDigit || ('a' ≤ c && c ≤ 'f') || ('A' ≤ c && c ≤ 'F')

def hexDigitVal (c : Char) : Nat :=
  if c.isDigit then c.toNat - 48
  else if 'a' ≤ c && c ≤ 'f' then c.toNat - 87
  else c.toNat - 55

def radixVal (digitVal : Char → Nat) (radix : Nat) (l : List Char) : Nat :=
  l.foldl (fun n c => radix * n + digitVal c) 0

/-- Optional exponent part `eE (+|-)? digits`, which must consume the
whole remainder. -/
def parseExpOpt : List Char → Option Int
  | [] => some 0
  | c :: rest =>
    if c = 'e' ∨ c = 'E' then
      let expDigits : List Char → Option Int := fun ds =>
        if ds ≠ [] ∧ ds.all Char.isDigit then some (digitsVal ds : Int) else none
      match rest with
      | '+' :: ds => expDigits ds
      | '-' :: ds => (expDigits ds).map (fun e => -e)
      | ds => expDigits ds
    else none

/-- Parses `digits ('.' digits?)? | '.' digits`, with an optional shared
exponent; the whole list must be consumed. -/
def parseDecCore (l : List Char) : Option Dec :=
  let ip := l.takeWhile Char.isDigit
  let rest := l.dropWhile Char.isDigit
  match rest with
  | '.' :: rest2 =>
    let fp := rest2.takeWhile Char.isDigit
    let rest3 := rest2.dropWhile Char.isDigit
    if ip.isEmpty && fp.isEmpty then none
    else
      (parseExpOpt rest3).map fun e =>
        ⟨(digitsVal ip : Int) * 10 ^ fp.length + (digitsVal fp : Int),
         e - (fp.length : Int)⟩
  | _ =>
    if ip.isEmpty then none
    else (parseExpOpt rest).map fun e => ⟨(digitsVal ip : Int), e⟩

/-- An unsigned decimal-or-Infinity tail (what may follow an explicit
sign). -/
def signedTail (l : List Char) : JsNum :=
  if l = "Infinity".data then .posInf
  else match parseDecCore l with
  | some d => .fin d
  | none => .nan

/-- An unsigned numeric literal, which may also be a hexadecimal,
binary or octal form. -/
def unsignedToNumber (l : List Char) : JsNum :=
  match l with
  | '0' :: c :: ds =>
    if c = 'x' ∨ c = 'X' then
      if ds ≠ [] ∧ ds.all isHexDigit then
        .fin (Dec.ofInt (radixVal hexDigitVal 16 ds : Int))
      else .nan
    else if c = 'b' ∨ c = 'B' then
      if ds ≠ [] ∧ ds.all (fun d => d = '0' ∨ d = '1') then
        .fin (Dec.ofInt (radixVal (fun d => d.toNat - 48) 2 ds : Int))
      else .nan
    else if c = 'o' ∨ c = 'O' then
      if ds ≠ [] ∧ ds.all (fun d => '0' ≤ d ∧ d ≤ '7') then
        .fin (Dec.ofInt (radixVal (fun d => d.toNat - 48) 8 ds : Int))
      else .nan
    else signedTail l
  | _ => signedTail l

/-- Models `Number(string)`: trim, empty means zero, optional sign, then a
numeric literal that must consume the whole trimmed string; anything
else is NaN. -/
def strToNumber (s : String) : JsNum :=
  let t := trimWs s.data
  if t.isEmpty then .fin (Dec.ofInt 0)
  else match t with
  | '+' :: rest => signedTail rest
  | '-' :: rest => jsNeg (signedTail rest)
  | _ => unsignedToNumber t

/-- Models `ToNumber` of an array: the array joins to a string (empty for `[]`,
the string form of the single element for singletons — recursively for a
nested array — and a comma-bearing string, hence NaN, otherwise). -/
def arrayToNumber : List Json → JsNum
  | [] => .fin (Dec.ofInt 0)
  | [Json.num d] => .fin d
  | [Json.str s] => strToNumber s
  | [Json.null] => .fin (Dec.ofInt 0)
  | [Json.arr inner] => arrayToNumber inner
  | _ => .nan

/-- JavaScript `ToNumber` on the JSON-representable values. -/
def toNumber : Json → JsNum
  | Json.null => .fin (Dec.ofInt 0)
  | Json.bool b => .fin (Dec.ofInt (if b then 1 else 0))
  | Json.num d => .fin d
  | Json.str s => strToNumber s
  | Json.arr elements => arrayToNumber elements
  | Json.obj _ => .nan

example : strToNumber "  150  " = .fin ⟨150, 0⟩ := by decide
example : strToNumber "abc" = .nan := by decide
example : strToNumber "1.5e2" = .fin ⟨15, 1⟩ := by decide
example : strToNumber "" = .fin ⟨0, 0⟩ := by decide
example : strToNumber "-2.5" = .fin ⟨-25, -1⟩ := by decide
example : strToNumber "0x1A" = .fin ⟨26, 0⟩ := by decide

/-! ### `JSON.parse` -/

/-- JSON insignificant whitespace. -/
def jsonWs (c : Char) : Bool :=
  c == ' ' || c == '\t' || c == '\n' || c == '\r'

def skipJsonWs (l : List Char) : List Char := l.dropWhile jsonWs

/-- Body of a JSON string after the opening quote: returns the decoded
characters and the input following the closing quote.  Raw control
characters are rejected; the standard escapes and `\uXXXX` are decoded. -/
def parseStringRest : List Char → Option (List Char × List Char)
  | [] => none
  | '"' :: rest => some ([], rest)
  | '\\' :: 'u' :: h1 :: h2 :: h3 :: h4 :: rest =>
    if [h1, h2, h3, h4].all isHexDigit then
      (parseStringRest rest).map fun (s, r) =>
        (Char.ofNat (radixVal hexDigitVal 16 [h1, h2, h3, h4]) :: s, r)
    else none
  | '\\' :: c :: rest =>
    let decoded : Option Char :=
      if c = '"' then some '"'
      else if c = '\\' then some '\\'
      else if c = '/' then some '/'
      else if c = 'b' then some '\x08'
      else if c = 'f' then some '\x0c'
      else if c = 'n' then some '\n'
      else if c = 'r' then some '\r'
      else if c = 't' then some '\t'
      else none
    match decoded with
    | none => none
    | some d => (parseStringRest rest).map fun (s, r) => (d :: s, r)
  | c :: rest =>
    if c.toNat < 0x20 then none
    else (parseStringRest rest).map fun (s, r) => (c :: s, r)

/-- A JSON number: `-? (0 | [1-9][0-9]*) frac? exp?`; returns the value
and the rest of the input. -/
def parseJsonNumber (l : List Char) : Option (Dec × List Char) :=
  let core : List Char → Option (Dec × List Char) := fun l2 =>
    match l2.takeWhile Char.isDigit, l2.dropWhile Char.isDigit with
    | [], _ => none
    | '0' :: _ :: _, _ => none
    | ip, rest =>
      let fracPart : Option (List Char × List Char) :=
        match rest with
        | '.' :: rest2 =>
          match rest2.takeWhile Char.isDigit, rest2.dropWhile Char.isDigit with
          | [], _ => none
          | fp, rest3 => some (fp, rest3)
        | _ => some ([], rest)
      match fracPart with
      | none => none
      | some (fp, rest3) =>
        let expPart : Option (Int × List Char) :=
          match rest3 with
          | c :: rest4 =>
            if c = 'e' ∨ c = 'E' then
              let digits : List Char → Option (Int × List Char) := fun ds =>
                match ds.takeWhile Char.isDigit, ds.dropWhile Char.isDigit with
                | [], _ => none
                | es, rest5 => some ((digitsVal es : Int), rest5)
              match rest4 with
              | '+' :: ds => digits ds
              | '-' :: ds => (digits ds).map fun (e, r) => (-e, r)
              | ds => digits ds
            else some (0, rest3)
          | [] => some (0, rest3)
        expPart.map fun (e, rest6) =>
          (⟨(digitsVal ip : Int) * 10 ^ fp.length + (digitsVal fp : Int),
            e - (fp.length : Int)⟩, rest6)
  match l with
  | '-' :: rest => (core rest).map fun (d, r) => (⟨-d.m, d.e⟩, r)
  | _ => core l

mutual

/-- One JSON value, after optional leading whitespace. -/
def parseValue : Nat → List Char → Option (Json × List Char)
  | 0, _ => none
  | fuel + 1, input =>
    match skipJsonWs input with
    | 'n' :: 'u' :: 'l' :: 'l' :: rest => some (Json.null, rest)
    | 't' :: 'r' :: 'u' :: 'e' :: rest => some (Json.bool true, rest)
    | 'f' :: 'a' :: 'l' :: 's' :: 'e' :: rest => some (Json.bool false, rest)
    | '"' :: rest =>
      (parseStringRest rest).map fun (s, r) => (Json.str (String.mk s), r)
    | '[' :: rest =>
      (match skipJsonWs rest with
       | ']' :: r2 => some (Json.arr [], r2)
       | r1 =>
         match parseElements fuel r1 with
         | some (es, r2) => some (Json.arr es, r2)
         | none => none)
    | '{' :: rest =>
      (match skipJsonWs rest with
       | '}' :: r2 => some (Json.obj [], r2)
       | r1 =>
         match parseMembers fuel r1 with
         | some (ms, r2) => some (Json.obj ms, r2)
         | none => none)
    | l => (parseJsonNumber l).map fun (d, r) => (Json.num d, r)

/-- Comma-separated array elements up to and including the closing
bracket. -/
def parseElements : Nat → List Char → Option (List Json × List Char)
  | 0, _ => none
  | fuel + 1, input =>
    match parseValue fuel input with
    | none => none
    | some (v, r) =>
      match skipJsonWs r with
      | ',' :: r2 =>
        (parseElements fuel r2).map fun (es, r3) => (v :: es, r3)
      | ']' :: r2 => some ([v], r2)
      | _ => none

/-- Comma-separated object members up to and including the closing
brace. -/
def parseMembers : Nat → List Char → Option (List (String × Json) × List Char)
  | 0, _ => none
  | fuel + 1, input =>
    match skipJsonWs input with
    | '"' :: rest =>
      (match parseStringRest rest with
       | none => none
       | some (k, r) =>
         match skipJsonWs r with
         | ':' :: r2 =>
           (match parseValue fuel r2 with
            | none => none
            | some (v, r3) =>
              match skipJsonWs r3 with
              | ',' :: r4 =>
                (parseMembers fuel r4).map fun (ms, r5) =>
                  ((String.mk k, v) :: ms, r5)
              | '}' :: r4 => some ([(String.mk k, v)], r4)
              | _ => none)
         | _ => none)
    | _ => none

end

/-- Models `JSON.parse`: parse one value and insist that only whitespace
follows. -/
def jsonParse (s : String) : Option Json :=
  match parseValue (2 * s.length + 2) s.data with
  | some (v, rest) => if skipJsonWs rest = [] then some v else none
  | none => none

example : jsonParse "  \x7b \"a\": [1, 2.5e1, null], \"a\": true \x7d " =
    some (Json.obj [("a", Json.arr [Json.num ⟨1, 0⟩, Json.num ⟨25, 0⟩, Json.null]),
      ("a", Json.bool true)]) := by rfl

example : jsonParse "hello" = none := by rfl

example : jsonParse "\"he\\nllo\"" = some (Json.str "he\nllo") := by rfl

/-! ## ResponseNormalizer (AIService.parseAIResponse) -/

/-- JavaScript falsiness of the JSON-representable values (`undefined`
is the `none` of an absent property). -/
def falsy : Json → Bool
  | Json.null => true
  | Json.bool b => !b
  | Json.num d => d.m == 0
  | Json.str s => s == ""
  | Json.arr _ => false
  | Json.obj _ => false

/-- Models `v || d`: the left operand unless it is absent or falsy. -/
def jsOr (v : Option Json) (d : Json) : Json :=
  match v with
  | none => d
  | some x => if falsy x then d else x

/-- Property access on a parsed JSON value: on an object the last
binding for the key wins (as in `JSON.parse` duplicate-key handling);
on any other non-null value the result is `undefined` (`none`). -/
def getProp : Json → String → Option Json
  | Json.obj members, k => members.reverse.lookup k
  | _, _ => none

/-- Models `Array.isArray(x) ? x : []`. -/
def getList (v : Json) (k : String) : List Json :=
  match getProp v k with
  | some (Json.arr elements) => elements
  | _ => []

/-- The `AnalysisResult` record assembled by the normalizer.  The
`overallMatch` number is a `JsNum` since the JavaScript coercing clamp can
produce NaN; the list fields hold whatever JSON elements the arrays
carried; `summary` is whatever truthy value the model supplied, or the
placeholder string. -/
structure AnalysisResult where
  overallMatch : JsNum
  strengths : List Json
  weaknesses : List Json
  recommendations : List Json
  keyAlignments : List Json
  missingSkills : List Json
  summary : Json

def summaryPlaceholder : String := "Analysis completed"

/-- The substring handed to `JSON.parse`: the regex `\x7b[\s\S]*\x7d`
matches from the first opening brace through the last closing brace
(greedy), provided some closing brace follows the first opening brace;
otherwise there is no match and the entire text is used. -/
def braceCandidate (l : List Char) : List Char :=
  match l.findIdx? (fun c => c = '{'), l.reverse.findIdx? (fun c => c = '}') with
  | some i, some k =>
    let j := l.length - 1 - k
    if i < j then (l.drop i).take (j - i + 1) else l
  | _, _ => l

def parseFailMsg : String := "Failed to parse AI response: Invalid JSON"

def nullPropMsg : String :=
  "Failed to parse AI response: Cannot read properties of null"

/-- Models `AIService.parseAIResponse`: recover a JSON candidate substring,
parse it, and coerce the parsed value into the result shape;
`JSON.parse` failure, or the property-access TypeError on a parsed
`null`, is the ParseError path. -/
def parseAIResponse (response : String) : Except String AnalysisResult :=
  let jsonString := String.mk (braceCandidate response.data)
  match jsonParse jsonString with
  | none => Except.error parseFailMsg
  | some Json.null => Except.error nullPropMsg
  | some v =>
    Except.ok
      { overallMatch :=
          jsMaxC ⟨0, 0⟩ (jsMinC ⟨100, 0⟩
            (toNumber (jsOr (getProp v "overallMatch") (Json.num ⟨0, 0⟩)))),
        strengths := getList v "strengths",
        weaknesses := getList v "weaknesses",
        recommendations := getList v "recommendations",
        keyAlignments := getList v "keyAlignments",
        missingSkills := getList v "missingSkills",
        summary := jsOr (getProp v "summary") (Json.str summaryPlaceholder) }

example :
    parseAIResponse "Here you go: \x7b\"overallMatch\": 150, \"strengths\": \"not-a-list\"\x7d" =
      Except.ok
        { overallMatch := JsNum.fin ⟨100, 0⟩,
          strengths := [], weaknesses := [], recommendations := [],
          keyAlignments := [], missingSkills := [],
          summary := Json.str summaryPlaceholder } := by rfl

lemma findIdx_none_of_not_mem {c : Char} {l : List Char} (h : c ∉ l) :
    l.findIdx? (fun d => d = c) = none := by
  rw [List.findIdx?_eq_none_iff]
  intro x hx
  simp only [decide_eq_false_iff_not]
  intro e
  exact h (e ▸ hx)

/-- Claim C2 (counterexample): a truthy non-numeric `overallMatch` is
not defaulted to 0 — the value `true` is coerced by the clamp to 1. -/
theorem parseAIResponse_nonnumeric_counterexample :
    ∃ r, parseAIResponse "\x7b\"overallMatch\": true\x7d" = Except.ok r ∧
      r.overallMatch = JsNum.fin ⟨1, 0⟩ ∧
      JsNum.fin ⟨1, 0⟩ ≠ JsNum.fin ⟨0, 0⟩ ∧
      (⟨1, 0⟩ : Dec).toRat = 1 :=
  ⟨_, rfl, rfl, by decide, by simp [Dec.toRat]⟩

lemma dec0_toRat : (⟨0, 0⟩ : Dec).toRat = 0 := by simp [Dec.toRat]

lemma dec100_toRat : (⟨100, 0⟩ : Dec).toRat = 100 := by simp [Dec.toRat]

/-- Claim C2 (amended): on a successfully parsed JSON object the
resulting `overallMatch` is `Math.max(0, Math.min(100, v || 0))`
under JavaScript coercion — 0 when the field is absent or falsy, and the
exact clamp into [0,100] when the field is a number; each list field is
the parsed array, coerced to the empty sequence whenever the parsed
value is not a sequence; and `summary` defaults to the placeholder when
absent.  The example of the spec yields `overallMatch = 100` and
`strengths = []`. -/
theorem parseAIResponse_normalize_spec (response : String)
    (members : List (String × Json))
    (hparse : jsonParse (String.mk (braceCandidate response.data)) =
      some (Json.obj members)) :
    ∃ r, parseAIResponse response = Except.ok r ∧
      (r.overallMatch =
        jsMaxC ⟨0, 0⟩ (jsMinC ⟨100, 0⟩
          (toNumber (jsOr (getProp (Json.obj members) "overallMatch")
            (Json.num ⟨0, 0⟩))))) ∧
      (getProp (Json.obj members) "overallMatch" = none →
        r.overallMatch = JsNum.fin ⟨0, 0⟩) ∧
      (∀ x, getProp (Json.obj members) "overallMatch" = some x → falsy x = true →
        r.overallMatch = JsNum.fin ⟨0, 0⟩) ∧
      (∀ d, getProp (Json.obj members) "overallMatch" = some (Json.num d) →
        ∃ d', r.overallMatch = JsNum.fin d' ∧
          d'.toRat = max 0 (min 100 d.toRat) ∧
          0 ≤ d'.toRat ∧ d'.toRat ≤ 100) ∧
      r.strengths = getList (Json.obj members) "strengths" ∧
      r.weaknesses = getList (Json.obj members) "weaknesses" ∧
      r.recommendations = getList (Json.obj members) "recommendations" ∧
      r.keyAlignments = getList (Json.obj members) "keyAlignments" ∧
      r.missingSkills = getList (Json.obj members) "missingSkills" ∧
      (∀ k, getProp (Json.obj members) k = none →
        getList (Json.obj members) k = []) ∧
      (∀ k x, getProp (Json.obj members) k = some x →
        (∀ es, x ≠ Json.arr es) → getList (Json.obj members) k = []) ∧
      (getProp (Json.obj members) "summary" = none →
        r.summary = Json.str summaryPlaceholder) ∧
      (∃ r2, parseAIResponse
          "Here you go: \x7b\"overallMatch\": 150, \"strengths\": \"not-a-list\"\x7d" =
          Except.ok r2 ∧ r2.overallMatch = JsNum.fin ⟨100, 0⟩ ∧ r2.strengths = []) := by
  have hr : parseAIResponse response = Except.ok
      { overallMatch :=
          jsMaxC ⟨0, 0⟩ (jsMinC ⟨100, 0⟩
            (toNumber (jsOr (getProp (Json.obj members) "overallMatch")
              (Json.num ⟨0, 0⟩)))),
        strengths := getList (Json.obj members) "strengths",
        weaknesses := getList (Json.obj members) "weaknesses",
        recommendations := getList (Json.obj members) "recommendations",
        keyAlignments := getList (Json.obj members) "keyAlignments",
        missingSkills := getList (Json.obj members) "missingSkills",
        summary := jsOr (getProp (Json.obj members) "summary")
          (Json.str summaryPlaceholder) } := by
    simp only [parseAIResponse, hparse]
  refine ⟨_, hr, rfl, ?_, ?_, ?_, rfl, rfl, rfl, rfl, rfl, ?_, ?_, ?_,
    ⟨_, rfl, rfl, rfl⟩⟩
  · intro h
    simp only [h]
    rfl
  · intro x hx hf
    simp only [hx, jsOr, hf, if_true]
    rfl
  · intro d hd
    simp only [hd]
    by_cases hm : d.m = 0
    · refine ⟨⟨0, 0⟩, ?_, ?_, ?_, ?_⟩
      · simp [jsOr, falsy, hm]
        rfl
      · have hd0 : d.toRat = 0 := by simp [Dec.toRat, hm]
        rw [dec0_toRat, hd0]
        norm_num
      · rw [dec0_toRat]
      · rw [dec0_toRat]; norm_num
    · have hfd : falsy (Json.num d) = false := by
        simp [falsy, hm]
      refine ⟨decMax ⟨0, 0⟩ (decMin ⟨100, 0⟩ d), ?_, ?_, ?_, ?_⟩
      · simp only [jsOr, hfd, Bool.false_eq_true, if_false]
        rfl
      · rw [decMax_toRat, decMin_toRat, dec0_toRat, dec100_toRat]
      · rw [decMax_toRat, decMin_toRat, dec0_toRat, dec100_toRat]
        exact le_max_left 0 _
      · rw [decMax_toRat, decMin_toRat, dec0_toRat, dec100_toRat]
        exact max_le (by norm_num) (min_le_left 100 _)
  · intro k h
    simp [getList, h]
  · intro k x hx hne
    simp only [getList, hx]
    cases x with
    | arr es => exact absurd rfl (hne es)
    | null => rfl
    | bool b => rfl
    | num d => rfl
    | str s => rfl
    | obj ms => rfl
  · intro h
    simp only [h]
    rfl

theorem parseAIResponse_normalize_spec_witness :
    ∃ r, parseAIResponse
        "Here you go: \x7b\"overallMatch\": 150, \"strengths\": \"not-a-list\"\x7d" =
        Except.ok r := by
  obtain ⟨r, hr, -⟩ := parseAIResponse_normalize_spec
    "Here you go: \x7b\"overallMatch\": 150, \"strengths\": \"not-a-list\"\x7d"
    [("overallMatch", Json.num ⟨150, 0⟩), ("strengths", Json.str "not-a-list")]
    (by rfl)
  exact ⟨r, hr⟩

/-- Claim C5: the normalizer parses the substring from the first opening
brace through the last closing brace when one follows the other, falls
back to the whole raw text when neither brace occurs, and fails with the
ParseError message whenever the candidate does not parse — in
particular on every brace-free text that is itself invalid JSON. -/
theorem parseAIResponse_recovery_spec (s : String) :
    (∀ i k, s.data.findIdx? (fun c => c = '{') = some i →
      s.data.reverse.findIdx? (fun c => c = '}') = some k →
      i < s.data.length - 1 - k →
      braceCandidate s.data =
        (s.data.drop i).take (s.data.length - 1 - k - i + 1)) ∧
    ('{' ∉ s.data → '}' ∉ s.data → braceCandidate s.data = s.data) ∧
    (jsonParse (String.mk (braceCandidate s.data)) = none →
      parseAIResponse s = Except.error parseFailMsg) ∧
    ('{' ∉ s.data → '}' ∉ s.data → jsonParse s = none →
      parseAIResponse s = Except.error parseFailMsg) := by
  have hwhole : ∀ h1 : '{' ∉ s.data, ∀ h2 : '}' ∉ s.data,
      braceCandidate s.data = s.data := by
    intro h1 h2
    have e1 := findIdx_none_of_not_mem h1
    have e2 := findIdx_none_of_not_mem (fun hm => h2 (List.mem_reverse.mp hm))
    simp [braceCandidate, e1, e2]
  have herr : jsonParse (String.mk (braceCandidate s.data)) = none →
      parseAIResponse s = Except.error parseFailMsg := by
    intro h
    simp only [parseAIResponse, h]
  refine ⟨?_, hwhole, herr, ?_⟩
  · intro i k h1 h2 hij
    simp only [braceCandidate, h1, h2]
    rw [if_pos hij]
  · intro h1 h2 hjp
    apply herr
    rw [hwhole h1 h2]
    exact hjp

theorem parseAIResponse_recovery_spec_witness :
    parseAIResponse "hello world" = Except.error parseFailMsg :=
  (parseAIResponse_recovery_spec "hello world").2.2.2 (by decide) (by decide) (by rfl)

/-! ## AnalysisOrchestrator (analysisRouter.analyzeCandidateMatch)

The process environment is an explicit record (a `none` variable is
unset; JavaScript truthiness makes the empty string count as unset too).
The PDF text extractor (`pdf-parse`) and the remote model call are
explicit oracles.  `TRPCError` codes are the two tiers the router uses. -/

structure EnvConfig where
  useWolfEndpointVar : Option String
  wolfEndpointVar : Option String
  wolfAuthTokenVar : Option String
  geminiEndpointVar : Option String
  geminiApiKeyVar : Option String

/-- JavaScript truthiness of an environment variable (`!!v`). -/
def envTruthy : Option String → Bool
  | some s => !(s == "")
  | none => false

/-- Models `USE_WOLF_ENDPOINT === "true" || USE_WOLF_ENDPOINT === "1"`. -/
def useWolfEndpoint (env : EnvConfig) : Bool :=
  env.useWolfEndpointVar == some "true" || env.useWolfEndpointVar == some "1"

inductive ErrCode where
  | BAD_REQUEST
  | INTERNAL_SERVER_ERROR
deriving DecidableEq, Repr

structure AppError where
  code : ErrCode
  message : String
deriving DecidableEq, Repr

def wolfTokenMissingMsg : String := "Wolf endpoint auth token not configured"

def geminiKeyMissingMsg : String := "Google Gemini API key not configured"

/-- Models `validateAIConfiguration`: run inside the request handler; throws an
INTERNAL_SERVER_ERROR TRPCError when the credential of the selected variant
is unset. -/
def validateAIConfiguration (env : EnvConfig) :
    Except AppError (Bool × Option String) :=
  if useWolfEndpoint env then
    if !envTruthy env.wolfAuthTokenVar then
      Except.error ⟨.INTERNAL_SERVER_ERROR, wolfTokenMissingMsg⟩
    else Except.ok (true, env.wolfAuthTokenVar)
  else
    if !envTruthy env.geminiApiKeyVar then
      Except.error ⟨.INTERNAL_SERVER_ERROR, geminiKeyMissingMsg⟩
    else Except.ok (false, none)

structure ProcessedPDFContent where
  text : String
  pageCount : Nat

/-- Models `PDFService.extractText`: wraps the failure message of the
external parser. -/
def extractText (pdf : List Nat → Except String ProcessedPDFContent)
    (buffer : List Nat) : Except String ProcessedPDFContent :=
  match pdf buffer with
  | Except.ok d => Except.ok d
  | Except.error m => Except.error ("Failed to extract text from PDF: " ++ m)

/-- Models `AIService.buildAnalysisPrompt`: the fixed instruction template
embedding both texts. -/
def buildAnalysisPrompt (cvText jobDescriptionText : String) : String :=
  "\nAnalyze the following CV against the job description and provide a comprehensive evaluation.\n\nJOB DESCRIPTION:\n"
  ++ jobDescriptionText
  ++ "\n\nCANDIDATE CV:\n"
  ++ cvText
  ++ "\n\nPlease provide your analysis in the following JSON format (ensure valid JSON):\n\n\x7b\n  \"overallMatch\": <number between 0-100>,\n  \"strengths\": [<array of candidate\x27s key strengths relevant to the role>],\n  \"weaknesses\": [<array of areas where candidate may be lacking>],\n  \"recommendations\": [<array of suggestions for improving the match>],\n  \"keyAlignments\": [<array of specific ways the candidate aligns with job requirements>],\n  \"missingSkills\": [<array of required skills the candidate appears to lack>],\n  \"summary\": \"<brief overall assessment paragraph>\"\n\x7d\n\nFocus on:\n- Technical skills alignment\n- Experience relevance\n- Cultural fit indicators\n- Education/certification match\n- Soft skills assessment\n- Growth potential\n\nProvide specific, actionable insights rather than generic statements.\n"

structure AnalysisMetadata where
  jobDescriptionPages : Nat
  cvPages : Nat
  analysisTimestampMs : Int
  remainingRequests : Int × Int
  endpointUsed : String

structure AnalyzeOutput where
  result : AnalysisResult
  metadata : AnalysisMetadata

/-- The `analyzeCandidateMatch` mutation: validate both PDFs, extract
and clean both texts, reject empty text, validate the AI configuration,
pass the local admission check, invoke the gateway, normalize, and
return the result with its metadata envelope.  The returned `RLState`
is the window map of the rate limiter after the call. -/
def analyzeCandidateMatch (env : EnvConfig)
    (pdfExtract : List Nat → Except String ProcessedPDFContent)
    (gateway : String → Except String String)
    (now : Int) (s : RLState)
    (jobDescription cv : List Nat) : Except AppError AnalyzeOutput × RLState :=
  if (validatePDF jobDescription).isValid then
    if (validatePDF cv).isValid then
      match extractText pdfExtract jobDescription with
      | Except.error m => (Except.error ⟨.INTERNAL_SERVER_ERROR, m⟩, s)
      | Except.ok jobDescContent =>
        match extractText pdfExtract cv with
        | Except.error m => (Except.error ⟨.INTERNAL_SERVER_ERROR, m⟩, s)
        | Except.ok cvContent =>
          let jobDescText := cleanText jobDescContent.text
          let cvText := cleanText cvContent.text
          if strTrim jobDescText = "" then
            (Except.error ⟨.BAD_REQUEST,
              "Job description PDF contains no readable text"⟩, s)
          else if strTrim cvText = "" then
            (Except.error ⟨.BAD_REQUEST, "CV PDF contains no readable text"⟩, s)
          else
            match validateAIConfiguration env with
            | Except.error e => (Except.error e, s)
            | Except.ok config =>
              let check := canMakeRequest now s "default"
              if check.1.allowed then
                match gateway (buildAnalysisPrompt cvText jobDescText) with
                | Except.error m =>
                  (Except.error ⟨.INTERNAL_SERVER_ERROR,
                    "AI service error: " ++ m⟩, check.2)
                | Except.ok aiResponse =>
                  match parseAIResponse aiResponse with
                  | Except.error m =>
                    (Except.error ⟨.INTERNAL_SERVER_ERROR, m⟩, check.2)
                  | Except.ok analysis =>
                    (Except.ok
                      { result := analysis,
                        metadata :=
                          { jobDescriptionPages := jobDescContent.pageCount,
                            cvPages := cvContent.pageCount,
                            analysisTimestampMs := now,
                            remainingRequests :=
                              getRemainingRequests now check.2 "default",
                            endpointUsed :=
                              if config.1 then "Wolf" else "Google Gemini" } },
                     check.2)
              else
                (Except.error ⟨.INTERNAL_SERVER_ERROR,
                  (check.1.error).getD ""⟩, check.2)
    else
      (Except.error ⟨.BAD_REQUEST,
        "CV PDF error: " ++ ((validatePDF cv).error).getD ""⟩, s)
  else
    (Except.error ⟨.BAD_REQUEST,
      "Job description PDF error: " ++
        ((validatePDF jobDescription).error).getD ""⟩, s)

/-- Claim C6: when the CV buffer fails validation the analysis fails
with a BAD_REQUEST error before extraction or gateway invocation: the
outcome is identical for arbitrary extraction and gateway oracles, and
the rate-limiter state is untouched. -/
theorem analyze_rejects_invalid_cv (env : EnvConfig)
    (ex1 ex2 : List Nat → Except String ProcessedPDFContent)
    (gw1 gw2 : String → Except String String)
    (now : Int) (s : RLState) (jd cv : List Nat)
    (hcv : (validatePDF cv).isValid = false) :
    (∃ msg, (analyzeCandidateMatch env ex1 gw1 now s jd cv).1 =
      Except.error ⟨ErrCode.BAD_REQUEST, msg⟩) ∧
    analyzeCandidateMatch env ex1 gw1 now s jd cv =
      analyzeCandidateMatch env ex2 gw2 now s jd cv ∧
    (analyzeCandidateMatch env ex1 gw1 now s jd cv).2 = s := by
  by_cases hjd : (validatePDF jd).isValid
  · refine ⟨⟨"CV PDF error: " ++ ((validatePDF cv).error).getD "", ?_⟩, ?_, ?_⟩ <;>
      simp [analyzeCandidateMatch, hjd, hcv]
  · refine ⟨⟨"Job description PDF error: " ++
        ((validatePDF jd).error).getD "", ?_⟩, ?_, ?_⟩ <;>
      simp [analyzeCandidateMatch, hjd]

theorem analyze_rejects_invalid_cv_witness :
    ∃ msg, (analyzeCandidateMatch ⟨none, none, none, none, some "k"⟩
        (fun _ => Except.ok ⟨"text", 1⟩) (fun _ => Except.ok "ok")
        0 [] pdfMarker [0x42]).1 =
      Except.error ⟨ErrCode.BAD_REQUEST, msg⟩ :=
  (analyze_rejects_invalid_cv ⟨none, none, none, none, some "k"⟩
    (fun _ => Except.ok ⟨"text", 1⟩) (fun _ => Except.ok ⟨"text", 1⟩)
    (fun _ => Except.ok "ok") (fun _ => Except.ok "ok")
    0 [] pdfMarker [0x42] (by decide)).1

/-- Claim C3 (counterexample): with the Primary (Google) variant
selected and no API key configured, a fully valid analyze request fails
per-request with the "not configured" error — the missing credential
surfaces as a per-request failure, and no startup-time check exists in
the code. -/
theorem missing_credential_counterexample :
    (analyzeCandidateMatch ⟨none, none, none, none, none⟩
        (fun _ => Except.ok ⟨"candidate text", 1⟩)
        (fun _ => Except.ok "ok") 0 [] pdfMarker pdfMarker).1 =
      Except.error ⟨ErrCode.INTERNAL_SERVER_ERROR, geminiKeyMissingMsg⟩ := by
  rfl

/-- Claim C3 (amended): a missing required credential for the selected
endpoint variant is detected on each analyze request, after document
validation, extraction and the empty-text checks: the request fails with
the INTERNAL_SERVER_ERROR "not configured" message of the variant, the
rate-limiter state is untouched, and the outcome is independent of the
gateway oracle. -/
theorem missing_credential_per_request (env : EnvConfig)
    (ex : List Nat → Except String ProcessedPDFContent)
    (gw1 gw2 : String → Except String String)
    (now : Int) (s : RLState) (jd cv : List Nat)
    (jdDoc cvDoc : ProcessedPDFContent)
    (hmiss : (if useWolfEndpoint env then envTruthy env.wolfAuthTokenVar
      else envTruthy env.geminiApiKeyVar) = false)
    (hjd : (validatePDF jd).isValid = true)
    (hcv : (validatePDF cv).isValid = true)
    (hejd : ex jd = Except.ok jdDoc)
    (hecv : ex cv = Except.ok cvDoc)
    (hnej : ¬ strTrim (cleanText jdDoc.text) = "")
    (hnec : ¬ strTrim (cleanText cvDoc.text) = "") :
    analyzeCandidateMatch env ex gw1 now s jd cv =
      (Except.error ⟨ErrCode.INTERNAL_SERVER_ERROR,
        if useWolfEndpoint env then wolfTokenMissingMsg
        else geminiKeyMissingMsg⟩, s) ∧
    analyzeCandidateMatch env ex gw1 now s jd cv =
      analyzeCandidateMatch env ex gw2 now s jd cv := by
  have hcfg : validateAIConfiguration env =
      Except.error ⟨.INTERNAL_SERVER_ERROR,
        if useWolfEndpoint env then wolfTokenMissingMsg
        else geminiKeyMissingMsg⟩ := by
    by_cases hw : useWolfEndpoint env
    · simp only [hw, if_true] at hmiss ⊢
      simp [validateAIConfiguration, hw, hmiss]
    · have hwf : useWolfEndpoint env = false := by simpa using hw
      simp only [hwf, Bool.false_eq_true, if_false] at hmiss ⊢
      simp [validateAIConfiguration, hwf, hmiss]
  constructor <;>
    simp [analyzeCandidateMatch, hjd, hcv, extractText, hejd, hecv,
      hnej, hnec, hcfg]

theorem missing_credential_per_request_witness :
    analyzeCandidateMatch ⟨some "true", none, some "", none, some "k"⟩
        (fun _ => Except.ok ⟨"text", 2⟩) (fun _ => Except.ok "ok")
        7 [] pdfMarker pdfMarker =
      (Except.error ⟨ErrCode.INTERNAL_SERVER_ERROR, wolfTokenMissingMsg⟩, []) :=
  (missing_credential_per_request ⟨some "true", none, some "", none, some "k"⟩
    (fun _ => Except.ok ⟨"text", 2⟩) (fun _ => Except.ok "ok")
    (fun _ => Except.ok "x") 7 [] pdfMarker pdfMarker ⟨"text", 2⟩ ⟨"text", 2⟩
    (by decide) (by decide) (by decide) rfl rfl (by decide) (by decide)).1

lemma lookup_setWindow (s : RLState) (id : String) (reqs : List Int) :
    (setWindow s id reqs).lookup id = some reqs := by
  simp [setWindow, List.lookup]

lemma getRemaining_eq (now : Int) (s : RLState) (id : String) :
    getRemainingRequests now s id =
      (max 0 ((minuteLimit : Int) -
         (cleanOldRequests now ((s.lookup id).getD []) minuteWindow).length),
       max 0 ((hourLimit : Int) -
         (cleanOldRequests now ((s.lookup id).getD []) hourWindow).length)) := by
  rw [getRemainingRequests]
  rcases s.lookup id with _ | reqs
  · rfl
  · rfl

lemma allowed_check_decrements (now : Int) (s : RLState) (id : String) (s' : RLState)
    (h : canMakeRequest now s id = (⟨true, none⟩, s')) :
    (getRemainingRequests now s' id).1 = (getRemainingRequests now s id).1 - 1 ∧
    1 ≤ (getRemainingRequests now s id).1 := by
  rw [canMakeRequest] at h
  split at h
  · simp at h
  · split at h
    · simp at h
    · rename_i hmin hhour
      have hs' : s' = setWindow s id
          (cleanOldRequests now ((s.lookup id).getD []) hourWindow ++ [now]) :=
        ((Prod.mk.injEq .. ▸ h).2).symm
      have hnowin : (fun t => decide (now - t < minuteWindow)) now = true := by
        simp [minuteWindow]
      have hsplit : cleanOldRequests now
          (cleanOldRequests now ((s.lookup id).getD []) hourWindow ++ [now])
            minuteWindow =
          cleanOldRequests now
            (cleanOldRequests now ((s.lookup id).getD []) hourWindow)
            minuteWindow ++ [now] := by
        rw [cleanOldRequests, List.filter_append]
        congr 1
        simp [List.filter, minuteWindow]
      have hmkey := cleanOld_of_pruned now now minuteWindow le_rfl (by decide)
        ((s.lookup id).getD [])
      rw [hmkey] at hmin hsplit
      rw [getRemaining_eq now s' id, getRemaining_eq now s id, hs',
        lookup_setWindow, Option.getD_some, hsplit]
      simp only [List.length_append, List.length_cons, List.length_nil,
        minuteLimit]
      rw [not_le] at hmin
      simp only [minuteLimit] at hmin
      constructor <;> omega

/-- Claim C7: a successful analysis of two valid non-empty documents
returns the normalized result wrapped with a metadata envelope whose
page counts equal the extraction page counts for the respective
documents and whose remaining minute count is exactly one less than the
pre-call remaining minute count. -/
theorem analyze_success_metadata (env : EnvConfig)
    (ex : List Nat → Except String ProcessedPDFContent)
    (gw : String → Except String String)
    (now : Int) (s s' : RLState) (jd cv : List Nat)
    (jdDoc cvDoc : ProcessedPDFContent) (cfg : Bool × Option String)
    (raw : String) (r : AnalysisResult)
    (hjd : (validatePDF jd).isValid = true)
    (hcv : (validatePDF cv).isValid = true)
    (hejd : ex jd = Except.ok jdDoc)
    (hecv : ex cv = Except.ok cvDoc)
    (hnej : ¬ strTrim (cleanText jdDoc.text) = "")
    (hnec : ¬ strTrim (cleanText cvDoc.text) = "")
    (hcfg : validateAIConfiguration env = Except.ok cfg)
    (hcheck : canMakeRequest now s "default" = (⟨true, none⟩, s'))
    (hgw : gw (buildAnalysisPrompt (cleanText cvDoc.text) (cleanText jdDoc.text)) =
      Except.ok raw)
    (hparse : parseAIResponse raw = Except.ok r) :
    analyzeCandidateMatch env ex gw now s jd cv =
      (Except.ok
        { result := r,
          metadata :=
            { jobDescriptionPages := jdDoc.pageCount,
              cvPages := cvDoc.pageCount,
              analysisTimestampMs := now,
              remainingRequests := getRemainingRequests now s' "default",
              endpointUsed := if cfg.1 then "Wolf" else "Google Gemini" } }, s') ∧
    (getRemainingRequests now s' "default").1 =
      (getRemainingRequests now s "default").1 - 1 ∧
    1 ≤ (getRemainingRequests now s "default").1 := by
  refine ⟨?_, allowed_check_decrements now s "default" s' hcheck⟩
  simp [analyzeCandidateMatch, hjd, hcv, extractText, hejd, hecv, hnej, hnec,
    hcfg, hcheck, hgw, hparse]

theorem analyze_success_metadata_witness :
    analyzeCandidateMatch ⟨none, none, none, none, some "k"⟩
        (fun _ => Except.ok ⟨"text", 2⟩) (fun _ => Except.ok "\x7b\x7d")
        0 [] pdfMarker pdfMarker =
      (Except.ok
        { result :=
            { overallMatch := JsNum.fin ⟨0, 0⟩,
              strengths := [], weaknesses := [], recommendations := [],
              keyAlignments := [], missingSkills := [],
              summary := Json.str summaryPlaceholder },
          metadata :=
            { jobDescriptionPages := 2, cvPages := 2, analysisTimestampMs := 0,
              remainingRequests := (19, 299),
              endpointUsed := "Google Gemini" } }, [("default", [0])]) := by
  have h := analyze_success_metadata ⟨none, none, none, none, some "k"⟩
    (fun _ => Except.ok ⟨"text", 2⟩) (fun _ => Except.ok "\x7b\x7d")
    0 [] [("default", [0])] pdfMarker pdfMarker ⟨"text", 2⟩ ⟨"text", 2⟩
    (false, none) "\x7b\x7d"
    { overallMatch := JsNum.fin ⟨0, 0⟩,
      strengths := [], weaknesses := [], recommendations := [],
      keyAlignments := [], missingSkills := [],
      summary := Json.str summaryPlaceholder }
    (by decide) (by decide) rfl rfl (by decide) (by decide) rfl rfl rfl rfl
  exact h.1.trans (by rfl)
